import Mathlib

/-!
Verification of the connector-path geometry engine in `src/visual/line.py`
(class `Line`).

Embedding conventions:
* A point is a pair of rationals (`Pt`).  The spec's data model declares
  coordinates "real-valued"; in operation they are Python floats, which we
  idealize as exact rational arithmetic.  (Python 2 integer division on
  integer inputs is not modeled; per the data model, coordinates are reals.)
* `find_intersect` in the source recurses with no structural bound; its
  termination test is `sqrt(sqdist) < 0.05`, which for the nonnegative
  `sqdist` is equivalent to `sqdist < 1/400` (proved in `sqrt_tol_iff`),
  so the embedding stays inside ℚ.  The recursion is embedded with a fuel
  parameter (`fi_fuel`); `fuelFor` supplies provably sufficient fuel, fuel
  irrelevance is proved (`fi_fuel_eq_find`), and `find_intersect_eq` shows
  the resulting total function satisfies the source's recursion equation,
  so the fuel is an implementation detail of the embedding, not a
  behavioral cap.
* The drawing half (`draw`) is modeled as a state transformer that also
  returns the list of emitted outputs (screen draw calls and laser OSC
  messages).  The external collaborators `curves.cubic_spline` and
  `field.rescale_pt2screen` are parameters of `draw`.  The owning field
  reference `m_field` is modeled as a set/unset flag, since the code only
  tests its truthiness before using it.
-/

abbrev Pt : Type := ℚ × ℚ

abbrev Color : Type := ℚ × ℚ × ℚ

abbrev Idx4 : Type := ℕ × ℕ × ℕ × ℕ

/-- Entry of the arc-point buffer.  `none` models the Python empty list `[]`
that initializes `lastpt` in pathfinding mode and can end up as the final
buffer entry when no path pair is processed; `some p` is an ordinary point. -/
abbrev PElem : Type := Option Pt

namespace Line

/-- Source `Line.fracpoint`: `(p1[0]+(p2[0]-p1[0])*fract, p1[1]+(p2[1]-p1[1])*fract)`. -/
def fracpoint (p1 p2 : Pt) (fract : ℚ) : Pt :=
  (p1.1 + (p2.1 - p1.1) * fract, p1.2 + (p2.2 - p1.2) * fract)

/-- Source `Line.midpoint`: `((p1[0]+p2[0])/2, (p1[1]+p2[1])/2)`. -/
def midpoint (p1 p2 : Pt) : Pt :=
  ((p1.1 + p2.1) / 2, (p1.2 + p2.2) / 2)

/-- Source `Line.make_arc`: control points at fractions `0.333` and `0.666`. -/
def make_arc (p1 p2 : Pt) : Pt × Pt × Pt × Pt :=
  (p1, fracpoint p1 p2 (333/1000), fracpoint p1 p2 (666/1000), p2)

/-- Source `Line.in_circle`:
`square_dist = (center[0]-p[0])**2 + (center[1]-p[1])**2; square_dist < radius**2`. -/
def in_circle (p center : Pt) (radius : ℚ) : Prop :=
  (center.1 - p.1) ^ 2 + (center.2 - p.2) ^ 2 < radius ^ 2

instance (p center : Pt) (radius : ℚ) : Decidable (in_circle p center radius) := by
  unfold in_circle; infer_instance

/-- Squared Euclidean distance.  The source computes
`dist = sqrt((a[0]-b[0])**2 + (a[1]-b[1])**2)` and compares `dist < .05`;
we carry the square and compare with `1/400 = 0.05 ** 2`. -/
def sqdist (p q : Pt) : ℚ := (p.1 - q.1) ^ 2 + (p.2 - q.2) ^ 2

/-- Fuel-indexed unfolding of source `Line.find_intersect`.  The fuel-0 value
is never reached when the fuel is at least `fuelFor (sqdist inpt outpt)`
(see `fi_fuel_eq_of_le` and `fuelFor_spec`). -/
def fi_fuel : ℕ → Pt → Pt → Pt → ℚ → Pt
  | 0, inpt, _, _, _ => inpt
  | n+1, inpt, outpt, center, radius =>
    if sqdist inpt outpt < 1/400 then inpt
    else
      if in_circle (midpoint outpt inpt) center radius then
        fi_fuel n (midpoint outpt inpt) outpt center radius
      else
        fi_fuel n inpt (midpoint outpt inpt) center radius

/-- Fuel that provably suffices for `fi_fuel` starting from squared distance
`d`: the recursion quarters `d` each step, and `400 * d < 4 ^ fuelFor d`. -/
def fuelFor (d : ℚ) : ℕ := 400 * (⌈d⌉.natAbs) + 401

/-- Source `Line.find_intersect`, as a total function: the unbounded Python
recursion supplied with provably sufficient fuel.  `find_intersect_eq`
recovers the source's recursion equation. -/
def find_intersect (inpt outpt center : Pt) (radius : ℚ) : Pt :=
  fi_fuel (fuelFor (sqdist inpt outpt)) inpt outpt center radius

/-- Source `Line.trim_ends`.  The first `if` (near end inside circle 0) is an
independent statement that rebinds `end0`; the following
`if in_circle(end1, p0, r0) / elif / elif` chain then reads the updated
`end0`. -/
def trim_ends (end0 end1 p0 p1 : Pt) (r0 r1 : ℚ) : Pt × Pt :=
  if (in_circle end0 p0 r0 ∧ in_circle end1 p0 r0) ∨
     (in_circle end0 p1 r1 ∧ in_circle end1 p1 r1) then
    (end0, end1)
  else
    let e0 := if in_circle end0 p0 r0 then find_intersect end0 end1 p0 r0 else end0
    if in_circle end1 p0 r0 then (find_intersect end1 e0 p0 r0, end1)
    else if in_circle e0 p1 r1 then (e0, find_intersect e0 end1 p1 r1)
    else if in_circle end1 p1 r1 then (e0, find_intersect end1 e0 p1 r1)
    else (e0, end1)

/-- Routing mode, source constant `LINEMODE = config.linemode`.  The shipped
`shared/config.py` does not define `linemode`, so the mode is kept as a
parameter of the embedding. -/
inductive LineMode where
  | direct
  | curves
  | simple
  | improved_simple
  | pathfinding
  | improved_pathfinding

/-- Source constant `GRAPHMODES = config.graphic_modes = 1 | 2`. -/
def GRAPHMODES : ℕ := 1 ||| 2

/-- Source `GRAPHOPTS['screen']`. -/
def GRAPHOPTS_screen : ℕ := 1

/-- Source `GRAPHOPTS['osc']`. -/
def GRAPHOPTS_osc : ℕ := 2

/-- Source constant `CURVE_SEGS = config.curve_segments = 12`. -/
def CURVE_SEGS : ℕ := 12

/-- The four stored points of an arc, as arc-point buffer entries. -/
def arc4 (a : Pt × Pt × Pt × Pt) : List PElem :=
  [some a.1, some a.2.1, some a.2.2.1, some a.2.2.2]

/-- Skip test of the pathfinding loop: both ends of the current path segment
inside the same circle (`line.py` lines 249-251). -/
def skipPair (p0 p1 : Pt) (r0 r1 : ℚ) (thispt nextpt : Pt) : Prop :=
  (in_circle thispt p0 r0 ∧ in_circle nextpt p0 r0) ∨
  (in_circle thispt p1 r1 ∧ in_circle nextpt p1 r1)

instance (p0 p1 : Pt) (r0 r1 : ℚ) (a b : Pt) : Decidable (skipPair p0 p1 r0 r1 a b) := by
  unfold skipPair; infer_instance

/-- One iteration of the pathfinding loop body (`line.py` lines 243-268),
threading the accumulated point buffer `npath` and the pending terminator
`lastpt` (initially the Python empty list, modeled as `none`). -/
def pathStep (p0 p1 : Pt) (r0 r1 : ℚ) (acc : List PElem × PElem) (pr : Pt × Pt) :
    List PElem × PElem :=
  if skipPair p0 p1 r0 r1 pr.1 pr.2 then acc
  else
    let tn : Pt × Pt :=
      if in_circle pr.1 p0 r0 then (find_intersect pr.1 pr.2 p0 r0, pr.2)
      else if in_circle pr.2 p1 r1 then (pr.1, find_intersect pr.2 pr.1 p1 r1)
      else (pr.1, pr.2)
    let arc := make_arc tn.1 tn.2
    (acc.1 ++ [some arc.1, some arc.2.1, some arc.2.2.1], some arc.2.2.2)

/-- Pathfinding index plan, source
`[(x-3,x-2,x-1,x) for x in range(3,len(npath),3)]`. -/
def mkArcIndex (n : ℕ) : List Idx4 :=
  ((List.range n).filter (fun x => 3 ≤ x && x % 3 == 0)).map (fun x => (x-3, x-2, x-1, x))

/-- Core of source `Line.render` (lines 154-275): from the current endpoints,
radii and waypoint path, produce `(m_arcpoints, m_arcindex)`.  `render`
first resets both to `None`, so the `pass` modes leave them `none`.
The pathfinding loop over `range(0, len(path)-1)` visits exactly the
consecutive pairs `path.zip path.tail`. -/
def render_core (mode : LineMode) (p0 p1 : Pt) (r0 r1 : ℚ) (path : List Pt) :
    Option (List PElem) × Option (List Idx4) :=
  match mode with
  | .direct =>
      (some [some p0, some (midpoint p0 p1), some (midpoint p0 p1), some p1],
       some [(0, 1, 2, 3)])
  | .curves =>
      let xdif := |p0.1 - p1.1|
      let ydif := |p0.2 - p1.2|
      let arcpts : Pt × Pt × Pt × Pt :=
        if xdif = 0 ∨ ydif = 0 then
          (p0, midpoint p0 p1, midpoint p0 p1, p1)
        else if xdif > ydif then
          (p0, ((p0.1 + p1.1)/2, p0.2), ((p0.1 + p1.1)/2, p1.2), p1)
        else
          (p0, (p0.1, (p0.2 + p1.2)/2), (p0.1, (p0.2 + p1.2)/2), p1)
      let h1 := trim_ends arcpts.1 arcpts.2.1 p0 p1 r0 r1
      let h2 := trim_ends arcpts.2.2.1 arcpts.2.2.2 p0 p1 r0 r1
      (some [some h1.1, some h1.2, some h2.1, some h2.2], some [(0, 1, 2, 3)])
  | .simple =>
      let xdif := |p0.1 - p1.1|
      let ydif := |p0.2 - p1.2|
      if xdif = 0 ∨ ydif = 0 then
        (some [some p0, some (midpoint p0 p1), some (midpoint p0 p1), some p1],
         some [(0, 1, 2, 3)])
      else if xdif > ydif then
        let xmid := (p0.1 + p1.1)/2
        (some (arc4 (make_arc p0 (xmid, p0.2)) ++ arc4 (make_arc (xmid, p0.2) (xmid, p1.2)) ++
               arc4 (make_arc (xmid, p1.2) p1)),
         some [(0, 1, 2, 3), (3, 5, 6, 7), (7, 9, 10, 11)])
      else
        let ymid := (p0.2 + p1.2)/2
        (some (arc4 (make_arc p0 (p0.1, ymid)) ++ arc4 (make_arc (p0.1, ymid) (p1.1, ymid)) ++
               arc4 (make_arc (p1.1, ymid) p1)),
         some [(0, 1, 2, 3), (3, 5, 6, 7), (7, 9, 10, 11)])
  | .improved_simple => (none, none)
  | .pathfinding =>
      let acc := (path.zip path.tail).foldl (pathStep p0 p1 r0 r1) ([], none)
      let npath := acc.1 ++ [acc.2]
      (some npath, some (mkArcIndex npath.length))
  | .improved_pathfinding => (none, none)

/-- Mutable state of a `Line` object (`Line.__init__` plus `m_path`, which
Python creates on first `update`; before that, `render` in pathfinding mode
would raise, but `draw` never calls `render` before `m_p0` is set). -/
structure LineState where
  m_field : Bool
  m_p0 : Option Pt
  m_p1 : Option Pt
  m_r0 : Option ℚ
  m_r1 : Option ℚ
  m_color : Option Color
  m_path : List Pt
  m_arcpoints : Option (List PElem)
  m_arcindex : Option (List Idx4)
  m_points : List (List Pt)
  m_index : List (List ℕ)

/-- State built by `Line.__init__`. -/
def initState : LineState :=
  ⟨false, none, none, none, none, none, [], none, none, [], []⟩

/-- Source `Line.update`.  Per the spec's data model the endpoints, radii and
color supplied by the entity source are always present (a `Point` is not
optional), so the parameters are total; only `path` is optional, defaulting
to `[p0, p1]`. -/
def update (s : LineState) (p0 p1 : Pt) (r0 r1 : ℚ) (color : Color)
    (path : Option (List Pt)) : LineState :=
  { s with
    m_field := true, m_p0 := some p0, m_p1 := some p1, m_r0 := some r0, m_r1 := some r1,
    m_color := some color, m_path := path.getD [p0, p1] }

/-- Python truthiness of an optional list: `None` and `[]` are falsy. -/
def truthyL {α : Type} : Option (List α) → Bool
  | none => false
  | some l => !l.isEmpty

/-- An emitted output of one `draw` call: a pyglet indexed-line draw call, a
laser color OSC message, or a laser cubic OSC message. -/
inductive Output where
  | screenDraw (color : Color) (points : List Pt) (index : List ℕ)
  | laserColor (color : Color)
  | laserCubic (coords : List ℚ)

/-- First half of `Line.draw` (lines 289-290): re-render if both endpoints
are truthy (any point is a nonempty tuple, hence truthy). -/
def drawRender (mode : LineMode) (s : LineState) : LineState :=
  match s.m_p0, s.m_p1 with
  | some p0, some p1 =>
      let r := render_core mode p0 p1 (s.m_r0.getD 0) (s.m_r1.getD 0) s.m_path
      { s with m_arcpoints := r.1, m_arcindex := r.2, m_points := [], m_index := [] }
  | _, _ => s

/-- Output gate of `Line.draw` (line 291):
`if self.m_field and self.m_arcpoints and self.m_arcindex and self.m_color`. -/
def gate (s : LineState) : Bool :=
  s.m_field && truthyL s.m_arcpoints && truthyL s.m_arcindex && s.m_color.isSome

/-- Read point `i` of the arc-point buffer.  Python would raise an
`IndexError` out of range and a `TypeError` on the `[]` placeholder; both
defaults are unreachable in the executions the claims quantify over, see
`render_pathfinding_all_skipped`. -/
def getPt (aps : List PElem) (i : ℕ) : Pt := (aps.getD i none).getD (0, 0)

/-- Tessellation of one arc on the screen path (lines 301-318): exactly
colinear (all four x equal or all four y equal) arcs bypass the external
cubic-spline evaluator. -/
def tessArc (cubic : Pt → Pt → Pt → Pt → ℕ → List Pt × List ℕ)
    (aps : List PElem) (q : Idx4) : List Pt × List ℕ :=
  let p0 := getPt aps q.1
  let p1 := getPt aps q.2.1
  let p2 := getPt aps q.2.2.1
  let p3 := getPt aps q.2.2.2
  if (p0.1 = p1.1 ∧ p1.1 = p2.1 ∧ p2.1 = p3.1) ∨
     (p0.2 = p1.2 ∧ p1.2 = p2.2 ∧ p2.2 = p3.2) then
    ([p0, p1, p2, p3], [0, 1, 1, 2, 2, 3])
  else cubic p0 p1 p2 p3 CURVE_SEGS

/-- Second half of `Line.draw` (lines 291-356): behind the gate, tessellate
and emit to the screen when bit `GRAPHOPTS['screen']` is set, and emit the
laser color and per-arc cubic messages when bit `GRAPHOPTS['osc']` is set.
`cubic` stands for the external `curves.cubic_spline`, `rescale` for the
external `m_field.rescale_pt2screen`. -/
def drawEmit (cubic : Pt → Pt → Pt → Pt → ℕ → List Pt × List ℕ)
    (rescale : List Pt → List Pt) (s : LineState) : LineState × List Output :=
  if gate s then
    let aps := s.m_arcpoints.getD []
    let ais := s.m_arcindex.getD []
    let col := s.m_color.getD (0, 0, 0)
    let scrState :=
      if GRAPHMODES &&& GRAPHOPTS_screen ≠ 0 then
        let tess := ais.map (tessArc cubic aps)
        { s with m_points := s.m_points ++ tess.map Prod.fst,
                 m_index := s.m_index ++ tess.map Prod.snd }
      else s
    let scrOut :=
      if GRAPHMODES &&& GRAPHOPTS_screen ≠ 0 then
        (scrState.m_points.zip scrState.m_index).map
          (fun pi => Output.screenDraw col (rescale pi.1) pi.2)
      else []
    let laserOut :=
      if GRAPHMODES &&& GRAPHOPTS_osc ≠ 0 then
        Output.laserColor col ::
          ais.map (fun q =>
            Output.laserCubic
              [(getPt aps q.1).1, (getPt aps q.1).2,
               (getPt aps q.2.1).1, (getPt aps q.2.1).2,
               (getPt aps q.2.2.1).1, (getPt aps q.2.2.1).2,
               (getPt aps q.2.2.2).1, (getPt aps q.2.2.2).2])
      else []
    (scrState, scrOut ++ laserOut)
  else (s, [])

/-- Source `Line.draw`: conditional re-render, then gated emission. -/
def draw (mode : LineMode) (cubic : Pt → Pt → Pt → Pt → ℕ → List Pt × List ℕ)
    (rescale : List Pt → List Pt) (s : LineState) : LineState × List Output :=
  drawEmit cubic rescale (drawRender mode s)

/-- States reachable through the object's lifecycle: construction, `update`,
and `draw` cycles. -/
inductive Reachable (mode : LineMode) (cubic : Pt → Pt → Pt → Pt → ℕ → List Pt × List ℕ)
    (rescale : List Pt → List Pt) : LineState → Prop where
  | init : Reachable mode cubic rescale initState
  | update (s : LineState) (p0 p1 : Pt) (r0 r1 : ℚ) (color : Color)
      (path : Option (List Pt)) : Reachable mode cubic rescale s →
      Reachable mode cubic rescale (update s p0 p1 r0 r1 color path)
  | draw (s : LineState) : Reachable mode cubic rescale s →
      Reachable mode cubic rescale (draw mode cubic rescale s).1

/-- Trivial stand-in for the external cubic-spline collaborator, used to
instantiate universally quantified statements at a concrete input. -/
def trivialCubic : Pt → Pt → Pt → Pt → ℕ → List Pt × List ℕ := fun _ _ _ _ _ => ([], [])

/-- Trivial stand-in for the external coordinate rescaler. -/
def trivialRescale : List Pt → List Pt := fun l => l

/-- The spec's interpolation helper: `lerp(a,b,t) = a + t*(b-a)` componentwise
(spec §4.2: "each arc built as `make_arc(a,b) = (a, lerp(a,b,1/3),
lerp(a,b,2/3), b)`").  Stated from the spec's words, for comparison with the
source's `make_arc`. -/
def lerp (a b : Pt) (t : ℚ) : Pt := (a.1 + t * (b.1 - a.1), a.2 + t * (b.2 - a.2))

/-- Real (non-squared) Euclidean distance between two embedded points, for
stating the spec's tolerance claims. -/
noncomputable def rdist (p q : Pt) : ℝ := Real.sqrt ((sqdist p q : ℚ) : ℝ)

/-- Embedding of a rational point into the Euclidean plane, used to derive
the triangle inequality for `rdist` from the metric-space structure. -/
def toE2 (p : Pt) : EuclideanSpace ℝ (Fin 2) := ![(p.1 : ℝ), (p.2 : ℝ)]

lemma sqdist_nonneg (p q : Pt) : 0 ≤ sqdist p q := by unfold sqdist; positivity

lemma sqdist_comm (p q : Pt) : sqdist p q = sqdist q p := by unfold sqdist; ring

lemma in_circle_iff (p center : Pt) (radius : ℚ) :
    in_circle p center radius ↔ sqdist p center < radius ^ 2 := by
  unfold in_circle sqdist
  rw [show (center.1 - p.1) ^ 2 + (center.2 - p.2) ^ 2
        = (p.1 - center.1) ^ 2 + (p.2 - center.2) ^ 2 from by ring]

lemma sqdist_mid_right (a b : Pt) : sqdist (midpoint b a) b = sqdist a b / 4 := by
  unfold sqdist midpoint; ring

lemma sqdist_mid_left (a b : Pt) : sqdist a (midpoint b a) = sqdist a b / 4 := by
  unfold sqdist midpoint; ring

lemma fracpoint_zero (a b : Pt) : fracpoint a b 0 = a := by
  unfold fracpoint; simp

lemma frac_mid_right (a b : Pt) (s : ℚ) :
    fracpoint (midpoint b a) b s = fracpoint a b (1/2 + s/2) := by
  unfold fracpoint midpoint
  refine Prod.ext ?_ ?_ <;> dsimp only <;> ring

lemma frac_mid_left (a b : Pt) (s : ℚ) :
    fracpoint a (midpoint b a) s = fracpoint a b (s/2) := by
  unfold fracpoint midpoint
  refine Prod.ext ?_ ?_ <;> dsimp only <;> ring

lemma sqdist_fracpoint (a b : Pt) (t : ℚ) :
    sqdist (fracpoint a b t) b = (1 - t) ^ 2 * sqdist a b := by
  unfold sqdist fracpoint; ring

lemma fuelFor_spec (d : ℚ) : 400 * d < 4 ^ fuelFor d := by
  have h1 : d ≤ ((⌈d⌉.natAbs : ℕ) : ℚ) := by
    calc d ≤ (⌈d⌉ : ℚ) := Int.le_ceil d
    _ ≤ |(⌈d⌉ : ℚ)| := le_abs_self _
    _ = ((|⌈d⌉| : ℤ) : ℚ) := Int.cast_abs.symm
    _ = ((⌈d⌉.natAbs : ℕ) : ℚ) := (Nat.cast_natAbs ⌈d⌉).symm
  have h2 : (fuelFor d : ℕ) < 4 ^ fuelFor d := Nat.lt_pow_self (by norm_num) _
  have h3 : ((fuelFor d : ℕ) : ℚ) < (4 : ℚ) ^ fuelFor d := by exact_mod_cast h2
  have h4 : ((fuelFor d : ℕ) : ℚ) = 400 * ((⌈d⌉.natAbs : ℕ) : ℚ) + 401 := by
    unfold fuelFor; push_cast; ring
  have h5 : 400 * d ≤ 400 * ((⌈d⌉.natAbs : ℕ) : ℚ) := by linarith
  linarith

lemma fi_fuel_stable (n : ℕ) (inpt outpt center : Pt) (radius : ℚ)
    (h : 400 * sqdist inpt outpt < 4 ^ n) :
    fi_fuel (n+1) inpt outpt center radius = fi_fuel n inpt outpt center radius := by
  induction n generalizing inpt outpt with
  | zero =>
      have hd : sqdist inpt outpt < 1/400 := by norm_num at h; linarith
      simp only [fi_fuel]
      rw [if_pos hd]
  | succ n ih =>
      rw [pow_succ] at h
      have h4 : (0 : ℚ) < 4 ^ n := by positivity
      by_cases hd : sqdist inpt outpt < 1/400
      · simp only [fi_fuel]; rw [if_pos hd, if_pos hd]
      · simp only [fi_fuel]; rw [if_neg hd, if_neg hd]
        by_cases hm : in_circle (midpoint outpt inpt) center radius
        · rw [if_pos hm, if_pos hm]
          exact ih _ _ (by rw [sqdist_mid_right]; linarith)
        · rw [if_neg hm, if_neg hm]
          exact ih _ _ (by rw [sqdist_mid_left]; linarith)

lemma fi_fuel_eq_of_le {n m : ℕ} (h : n ≤ m) (inpt outpt center : Pt) (radius : ℚ)
    (hs : 400 * sqdist inpt outpt < 4 ^ n) :
    fi_fuel m inpt outpt center radius = fi_fuel n inpt outpt center radius := by
  induction m, h using Nat.le_induction with
  | base => rfl
  | succ m hm ih =>
      have hs' : 400 * sqdist inpt outpt < 4 ^ m :=
        lt_of_lt_of_le hs (pow_le_pow_right₀ (by norm_num) hm)
      rw [fi_fuel_stable m _ _ _ _ hs', ih]

lemma fi_fuel_eq_find (m : ℕ) (inpt outpt center : Pt) (radius : ℚ)
    (h : 400 * sqdist inpt outpt < 4 ^ m) :
    fi_fuel m inpt outpt center radius = find_intersect inpt outpt center radius := by
  unfold find_intersect
  rcases le_total m (fuelFor (sqdist inpt outpt)) with hle | hle
  · exact (fi_fuel_eq_of_le hle _ _ _ _ h).symm
  · exact fi_fuel_eq_of_le hle _ _ _ _ (fuelFor_spec _)

lemma find_intersect_eq (inpt outpt center : Pt) (radius : ℚ) :
    find_intersect inpt outpt center radius =
      if sqdist inpt outpt < 1/400 then inpt
      else if in_circle (midpoint outpt inpt) center radius then
        find_intersect (midpoint outpt inpt) outpt center radius
      else find_intersect inpt (midpoint outpt inpt) center radius := by
  have h0 : 0 ≤ sqdist inpt outpt := sqdist_nonneg _ _
  obtain ⟨k, hkdef⟩ : ∃ k, k = fuelFor (sqdist inpt outpt) := ⟨_, rfl⟩
  have hk : 400 * sqdist inpt outpt < 4 ^ k := hkdef ▸ fuelFor_spec _
  have h4 : (0 : ℚ) < 4 ^ k := by positivity
  have h44 : (4 : ℚ) ^ k * 1 ≤ 4 ^ k * 4 :=
    mul_le_mul_of_nonneg_left (by norm_num) (le_of_lt h4)
  have hk1 : 400 * sqdist inpt outpt < 4 ^ (k + 1) := by
    rw [pow_succ]; linarith
  rw [← fi_fuel_eq_find (k + 1) _ _ _ _ hk1]
  simp only [fi_fuel]
  by_cases hd : sqdist inpt outpt < 1/400
  · rw [if_pos hd, if_pos hd]
  · rw [if_neg hd, if_neg hd]
    by_cases hm : in_circle (midpoint outpt inpt) center radius
    · rw [if_pos hm, if_pos hm]
      exact fi_fuel_eq_find _ _ _ _ _ (by rw [sqdist_mid_right]; linarith)
    · rw [if_neg hm, if_neg hm]
      exact fi_fuel_eq_find _ _ _ _ _ (by rw [sqdist_mid_left]; linarith)

lemma fi_step_done (inpt outpt center : Pt) (radius : ℚ)
    (h : sqdist inpt outpt < 1/400) :
    find_intersect inpt outpt center radius = inpt := by
  rw [find_intersect_eq, if_pos h]

lemma fi_step_in (inpt outpt center : Pt) (radius : ℚ) (m : Pt)
    (hm : midpoint outpt inpt = m) (h1 : ¬ sqdist inpt outpt < 1/400)
    (h2 : in_circle m center radius) :
    find_intersect inpt outpt center radius = find_intersect m outpt center radius := by
  subst hm; rw [find_intersect_eq, if_neg h1, if_pos h2]

lemma fi_step_out (inpt outpt center : Pt) (radius : ℚ) (m : Pt)
    (hm : midpoint outpt inpt = m) (h1 : ¬ sqdist inpt outpt < 1/400)
    (h2 : ¬ in_circle m center radius) :
    find_intersect inpt outpt center radius = find_intersect inpt m center radius := by
  subst hm; rw [find_intersect_eq, if_neg h1, if_neg h2]

lemma sqrt_tol_iff (d : ℚ) : Real.sqrt ((d : ℚ) : ℝ) < 1/20 ↔ d < 1/400 := by
  rw [Real.sqrt_lt' (by norm_num : (0:ℝ) < 1/20)]
  rw [show ((1:ℝ)/20) ^ 2 = ((1/400 : ℚ) : ℝ) from by norm_num]
  exact Rat.cast_lt

lemma rdist_eq_dist (p q : Pt) : rdist p q = dist (toE2 p) (toE2 q) := by
  rw [EuclideanSpace.dist_eq]
  unfold rdist toE2
  congr 1
  rw [Fin.sum_univ_two]
  simp only [Matrix.cons_val_zero, Matrix.cons_val_one, Matrix.head_cons, Real.dist_eq, sq_abs]
  unfold sqdist
  push_cast
  ring

lemma rdist_triangle (a b c : Pt) : rdist a c ≤ rdist a b + rdist b c := by
  rw [rdist_eq_dist a c, rdist_eq_dist a b, rdist_eq_dist b c]
  exact dist_triangle _ _ _

lemma fi_fuel_invariant (n : ℕ) (inpt outpt center : Pt) (radius : ℚ)
    (hin : in_circle inpt center radius) (hout : ¬ in_circle outpt center radius)
    (hsuf : 400 * sqdist inpt outpt < 4 ^ n) :
    (∃ t : ℚ, 0 ≤ t ∧ t ≤ 1 ∧ fi_fuel n inpt outpt center radius = fracpoint inpt outpt t) ∧
    in_circle (fi_fuel n inpt outpt center radius) center radius ∧
    ∃ q : Pt, ¬ in_circle q center radius ∧
      sqdist (fi_fuel n inpt outpt center radius) q < 1/400 := by
  induction n generalizing inpt outpt with
  | zero =>
      have hd : sqdist inpt outpt < 1/400 := by norm_num at hsuf; linarith
      refine ⟨⟨0, le_refl 0, zero_le_one, ?_⟩, hin, outpt, hout, ?_⟩
      · simp only [fi_fuel]; rw [fracpoint_zero]
      · simpa only [fi_fuel] using hd
  | succ n ih =>
      rw [pow_succ] at hsuf
      have h4 : (0 : ℚ) < 4 ^ n := by positivity
      by_cases hd : sqdist inpt outpt < 1/400
      · have hun : fi_fuel (n+1) inpt outpt center radius = inpt := by
          simp only [fi_fuel]; rw [if_pos hd]
        refine ⟨⟨0, le_refl 0, zero_le_one, ?_⟩, ?_, outpt, hout, ?_⟩
        · rw [hun, fracpoint_zero]
        · rw [hun]; exact hin
        · rw [hun]; exact hd
      · by_cases hm : in_circle (midpoint outpt inpt) center radius
        · obtain ⟨⟨t, ht0, ht1, hp⟩, hpin, q, hq1, hq2⟩ :=
            ih (midpoint outpt inpt) outpt hm hout (by rw [sqdist_mid_right]; linarith)
          have hun : fi_fuel (n+1) inpt outpt center radius
              = fi_fuel n (midpoint outpt inpt) outpt center radius := by
            simp only [fi_fuel]; rw [if_neg hd, if_pos hm]
          refine ⟨⟨1/2 + t/2, by linarith, by linarith, ?_⟩, ?_, q, hq1, ?_⟩
          · rw [hun, hp, frac_mid_right]
          · rw [hun]; exact hpin
          · rw [hun]; exact hq2
        · obtain ⟨⟨t, ht0, ht1, hp⟩, hpin, q, hq1, hq2⟩ :=
            ih inpt (midpoint outpt inpt) hin hm (by rw [sqdist_mid_left]; linarith)
          have hun : fi_fuel (n+1) inpt outpt center radius
              = fi_fuel n inpt (midpoint outpt inpt) center radius := by
            simp only [fi_fuel]; rw [if_neg hd, if_neg hm]
          refine ⟨⟨t/2, by linarith, by linarith, ?_⟩, ?_, q, hq1, ?_⟩
          · rw [hun, hp, frac_mid_left]
          · rw [hun]; exact hpin
          · rw [hun]; exact hq2

lemma GRAPH_screen_on : GRAPHMODES &&& GRAPHOPTS_screen ≠ 0 := by decide

lemma GRAPH_osc_on : GRAPHMODES &&& GRAPHOPTS_osc ≠ 0 := by decide

lemma truthyL_none {α : Type} : truthyL (none : Option (List α)) = false := rfl

lemma truthyL_nil {α : Type} : truthyL (some ([] : List α)) = false := rfl

lemma foldl_pathStep_skip (p0 p1 : Pt) (r0 r1 : ℚ) (l : List (Pt × Pt))
    (acc : List PElem × PElem)
    (h : ∀ pr ∈ l, skipPair p0 p1 r0 r1 pr.1 pr.2) :
    l.foldl (pathStep p0 p1 r0 r1) acc = acc := by
  induction l generalizing acc with
  | nil => rfl
  | cons a l ih =>
      rw [List.foldl_cons,
        show pathStep p0 p1 r0 r1 acc a = acc from by
          unfold pathStep; rw [if_pos (h a (List.mem_cons_self a l))]]
      exact ih _ (fun pr hpr => h pr (List.mem_cons_of_mem a hpr))

lemma mkArcIndex_one : mkArcIndex 1 = [] := by decide

lemma drawRender_of_unset (mode : LineMode) (s : LineState)
    (h : s.m_p0 = none ∨ s.m_p1 = none) : drawRender mode s = s := by
  rcases h with h | h
  · cases h1 : s.m_p1 <;> simp [drawRender, h, h1]
  · cases h0 : s.m_p0 <;> simp [drawRender, h, h0]

lemma drawRender_m_p0 (mode : LineMode) (s : LineState) :
    (drawRender mode s).m_p0 = s.m_p0 := by
  cases h0 : s.m_p0 <;> cases h1 : s.m_p1 <;> simp [drawRender, h0, h1]

lemma drawRender_m_p1 (mode : LineMode) (s : LineState) :
    (drawRender mode s).m_p1 = s.m_p1 := by
  cases h0 : s.m_p0 <;> cases h1 : s.m_p1 <;> simp [drawRender, h0, h1]

lemma drawRender_m_field (mode : LineMode) (s : LineState) :
    (drawRender mode s).m_field = s.m_field := by
  cases h0 : s.m_p0 <;> cases h1 : s.m_p1 <;> simp [drawRender, h0, h1]

lemma drawRender_m_color (mode : LineMode) (s : LineState) :
    (drawRender mode s).m_color = s.m_color := by
  cases h0 : s.m_p0 <;> cases h1 : s.m_p1 <;> simp [drawRender, h0, h1]

lemma drawEmit_of_gate_false (cubic : Pt → Pt → Pt → Pt → ℕ → List Pt × List ℕ)
    (rescale : List Pt → List Pt) (s : LineState) (h : gate s = false) :
    drawEmit cubic rescale s = (s, []) := by
  unfold drawEmit
  simp [h]

lemma drawEmit_fst_pres (cubic : Pt → Pt → Pt → Pt → ℕ → List Pt × List ℕ)
    (rescale : List Pt → List Pt) (s : LineState) :
    ((drawEmit cubic rescale s).1).m_field = s.m_field ∧
    ((drawEmit cubic rescale s).1).m_p0 = s.m_p0 ∧
    ((drawEmit cubic rescale s).1).m_p1 = s.m_p1 ∧
    ((drawEmit cubic rescale s).1).m_color = s.m_color ∧
    ((drawEmit cubic rescale s).1).m_arcpoints = s.m_arcpoints ∧
    ((drawEmit cubic rescale s).1).m_arcindex = s.m_arcindex := by
  unfold drawEmit
  split
  · simp [GRAPH_screen_on]
  · simp

lemma gate_false_of_arcpoints_none (s : LineState) (h : s.m_arcpoints = none) :
    gate s = false := by
  unfold gate
  rw [h, truthyL_none]
  simp

lemma gate_false_of_color_none (s : LineState) (h : s.m_color = none) :
    gate s = false := by
  unfold gate
  rw [h]
  simp

lemma gate_false_of_field_false (s : LineState) (h : s.m_field = false) :
    gate s = false := by
  unfold gate
  rw [h]
  simp

lemma gate_false_of_arcindex_trivial (s : LineState)
    (h : s.m_arcindex = none ∨ s.m_arcindex = some []) : gate s = false := by
  unfold gate
  rcases h with h | h <;> rw [h] <;> simp [truthyL]

lemma reachable_arcpoints_none {mode : LineMode}
    {cubic : Pt → Pt → Pt → Pt → ℕ → List Pt × List ℕ} {rescale : List Pt → List Pt}
    {s : LineState} (h : Reachable mode cubic rescale s) :
    s.m_p0 = none ∨ s.m_p1 = none → s.m_arcpoints = none := by
  induction h with
  | init => intro _; rfl
  | update s' p0 p1 r0 r1 color path hs ih =>
      intro hp
      rcases hp with hp | hp <;> simp [update] at hp
  | draw s' hs ih =>
      intro hp
      have hpres := drawEmit_fst_pres cubic rescale (drawRender mode s')
      have hp' : s'.m_p0 = none ∨ s'.m_p1 = none := by
        rcases hp with hp | hp
        · left
          rw [← drawRender_m_p0 mode s', ← hpres.2.1]
          exact hp
        · right
          rw [← drawRender_m_p1 mode s', ← hpres.2.2.1]
          exact hp
      have hdr : drawRender mode s' = s' := drawRender_of_unset mode s' hp'
      show ((drawEmit cubic rescale (drawRender mode s')).1).m_arcpoints = none
      rw [hpres.2.2.2.2.1, hdr]
      exact ih hp'

lemma fiC1a : find_intersect ((99:ℚ)/100, (0:ℚ)) (53/50, 0) (0, 0) 1 = (99/100, 0) := by
  rw [fi_step_out _ _ _ _ (41/40, 0) (by norm_num [midpoint]) (by norm_num [sqdist])
    (by norm_num [in_circle])]
  exact fi_step_done _ _ _ _ (by norm_num [sqdist])

lemma fiC1b : find_intersect ((53:ℚ)/50, (0:ℚ)) (99/100, 0) (53/50, 0) (1/20) = (41/40, 0) := by
  rw [fi_step_in _ _ _ _ (41/40, 0) (by norm_num [midpoint]) (by norm_num [sqdist])
    (by norm_num [in_circle])]
  exact fi_step_done _ _ _ _ (by norm_num [sqdist])

lemma trim_ends_unfold (end0 end1 p0 p1 : Pt) (r0 r1 : ℚ)
    (hguard : ¬ ((in_circle end0 p0 r0 ∧ in_circle end1 p0 r0) ∨
       (in_circle end0 p1 r1 ∧ in_circle end1 p1 r1))) :
    trim_ends end0 end1 p0 p1 r0 r1 =
      (let e0 := if in_circle end0 p0 r0 then find_intersect end0 end1 p0 r0 else end0
       if in_circle end1 p0 r0 then (find_intersect end1 e0 p0 r0, end1)
       else if in_circle e0 p1 r1 then (e0, find_intersect e0 end1 p1 r1)
       else if in_circle end1 p1 r1 then (e0, find_intersect end1 e0 p1 r1)
       else (e0, end1)) := by
  unfold trim_ends
  rw [if_neg hguard]

lemma trim_ends_both_aux (end0 end1 p0 p1 : Pt) (r0 r1 : ℚ)
    (h00 : in_circle end0 p0 r0) (h11 : in_circle end1 p1 r1)
    (h10 : ¬ in_circle end1 p0 r0) (h01 : ¬ in_circle end0 p1 r1) :
    trim_ends end0 end1 p0 p1 r0 r1 =
      (find_intersect end0 end1 p0 r0,
       if in_circle (find_intersect end0 end1 p0 r0) p1 r1 then
         find_intersect (find_intersect end0 end1 p0 r0) end1 p1 r1
       else find_intersect end1 (find_intersect end0 end1 p0 r0) p1 r1) := by
  rw [trim_ends_unfold _ _ _ _ _ _ (by rintro (⟨_, hc⟩ | ⟨hc, _⟩); exacts [h10 hc, h01 hc])]
  dsimp only
  rw [if_pos h00, if_neg h10]
  by_cases hmid : in_circle (find_intersect end0 end1 p0 r0) p1 r1
  · rw [if_pos hmid, if_pos hmid]
  · rw [if_neg hmid, if_neg hmid, if_pos h11]

lemma trimC1 :
    trim_ends ((99:ℚ)/100, (0:ℚ)) (53/50, 0) (0, 0) (53/50, 0) 1 (1/20)
      = ((99/100, 0), (41/40, 0)) := by
  rw [trim_ends_unfold _ _ _ _ _ _ (by norm_num [in_circle])]
  dsimp only
  rw [if_pos (by norm_num [in_circle] :
        in_circle ((99:ℚ)/100, (0:ℚ)) (0, 0) 1)]
  rw [fiC1a]
  rw [if_neg (by norm_num [in_circle] :
        ¬ in_circle ((53:ℚ)/50, (0:ℚ)) (0, 0) 1)]
  rw [if_neg (by norm_num [in_circle] :
        ¬ in_circle ((99:ℚ)/100, (0:ℚ)) (53/50, 0) (1/20))]
  rw [if_pos (by norm_num [in_circle] :
        in_circle ((53:ℚ)/50, (0:ℚ)) (53/50, 0) (1/20))]
  rw [fiC1b]

lemma fiC4a : find_intersect ((0:ℚ), (0:ℚ)) (5, 0) (0, 0) 1 = (125/128, 0) := by
  rw [fi_step_out _ _ _ _ (5/2, 0) (by norm_num [midpoint]) (by norm_num [sqdist])
    (by norm_num [in_circle])]
  rw [fi_step_out _ _ _ _ (5/4, 0) (by norm_num [midpoint]) (by norm_num [sqdist])
    (by norm_num [in_circle])]
  rw [fi_step_in _ _ _ _ (5/8, 0) (by norm_num [midpoint]) (by norm_num [sqdist])
    (by norm_num [in_circle])]
  rw [fi_step_in _ _ _ _ (15/16, 0) (by norm_num [midpoint]) (by norm_num [sqdist])
    (by norm_num [in_circle])]
  rw [fi_step_out _ _ _ _ (35/32, 0) (by norm_num [midpoint]) (by norm_num [sqdist])
    (by norm_num [in_circle])]
  rw [fi_step_out _ _ _ _ (65/64, 0) (by norm_num [midpoint]) (by norm_num [sqdist])
    (by norm_num [in_circle])]
  rw [fi_step_in _ _ _ _ (125/128, 0) (by norm_num [midpoint]) (by norm_num [sqdist])
    (by norm_num [in_circle])]
  exact fi_step_done _ _ _ _ (by norm_num [sqdist])

lemma fiC4b : find_intersect ((10:ℚ), (4:ℚ)) (5, 4) (10, 4) 1 = (1155/128, 4) := by
  rw [fi_step_out _ _ _ _ (15/2, 4) (by norm_num [midpoint]) (by norm_num [sqdist])
    (by norm_num [in_circle])]
  rw [fi_step_out _ _ _ _ (35/4, 4) (by norm_num [midpoint]) (by norm_num [sqdist])
    (by norm_num [in_circle])]
  rw [fi_step_in _ _ _ _ (75/8, 4) (by norm_num [midpoint]) (by norm_num [sqdist])
    (by norm_num [in_circle])]
  rw [fi_step_in _ _ _ _ (145/16, 4) (by norm_num [midpoint]) (by norm_num [sqdist])
    (by norm_num [in_circle])]
  rw [fi_step_out _ _ _ _ (285/32, 4) (by norm_num [midpoint]) (by norm_num [sqdist])
    (by norm_num [in_circle])]
  rw [fi_step_out _ _ _ _ (575/64, 4) (by norm_num [midpoint]) (by norm_num [sqdist])
    (by norm_num [in_circle])]
  rw [fi_step_in _ _ _ _ (1155/128, 4) (by norm_num [midpoint]) (by norm_num [sqdist])
    (by norm_num [in_circle])]
  exact fi_step_done _ _ _ _ (by norm_num [sqdist])

lemma trimC4a :
    trim_ends ((0:ℚ), (0:ℚ)) (5, 0) (0, 0) (10, 4) 1 1 = ((125/128, 0), (5, 0)) := by
  rw [trim_ends_unfold _ _ _ _ _ _ (by norm_num [in_circle])]
  dsimp only
  rw [if_pos (by norm_num [in_circle] : in_circle ((0:ℚ), (0:ℚ)) (0, 0) 1)]
  rw [fiC4a]
  rw [if_neg (by norm_num [in_circle] : ¬ in_circle ((5:ℚ), (0:ℚ)) (0, 0) 1)]
  rw [if_neg (by norm_num [in_circle] : ¬ in_circle ((125:ℚ)/128, (0:ℚ)) (10, 4) 1)]
  rw [if_neg (by norm_num [in_circle] : ¬ in_circle ((5:ℚ), (0:ℚ)) (10, 4) 1)]

lemma trimC4b :
    trim_ends ((5:ℚ), (4:ℚ)) (10, 4) (0, 0) (10, 4) 1 1 = ((5, 4), (1155/128, 4)) := by
  rw [trim_ends_unfold _ _ _ _ _ _ (by norm_num [in_circle])]
  dsimp only
  rw [if_neg (by norm_num [in_circle] : ¬ in_circle ((5:ℚ), (4:ℚ)) (0, 0) 1)]
  rw [if_neg (by norm_num [in_circle] : ¬ in_circle ((10:ℚ), (4:ℚ)) (0, 0) 1)]
  rw [if_neg (by norm_num [in_circle] : ¬ in_circle ((5:ℚ), (4:ℚ)) (10, 4) 1)]
  rw [if_pos (by norm_num [in_circle] : in_circle ((10:ℚ), (4:ℚ)) (10, 4) 1)]
  rw [fiC4b]

lemma render_curves_eval :
    render_core .curves ((0:ℚ), (0:ℚ)) (10, 4) 1 1 [] =
      (some [some (125/128, 0), some (5, 0), some (5, 4), some (1155/128, 4)],
       some [(0, 1, 2, 3)]) := by
  dsimp only [render_core]
  rw [if_neg (by norm_num : ¬ (|(0:ℚ) - 10| = 0 ∨ |(0:ℚ) - 4| = 0))]
  rw [if_pos (by norm_num : |(0:ℚ) - 10| > |(0:ℚ) - 4|)]
  dsimp only
  rw [show ((0:ℚ) + 10) / 2 = 5 from by norm_num]
  rw [trimC4a, trimC4b]

lemma render_simple_eval (r0 r1 : ℚ) (path : List Pt) :
    render_core .simple ((0:ℚ), (0:ℚ)) (0, 10) r0 r1 path =
      (some [some (0, 0), some (0, 5), some (0, 5), some (0, 10)], some [(0, 1, 2, 3)]) := by
  dsimp only [render_core]
  rw [if_pos (by norm_num : (|(0:ℚ) - 0| = 0 ∨ |(0:ℚ) - 10| = 0))]
  norm_num [midpoint]

/-- C1 counterexample: with `end0 = (0.99, 0)` strictly inside circle 0
(center `(0,0)`, radius 1) and `end1 = (1.06, 0)` strictly inside circle 1
(center `(1.06, 0)`, radius `0.05`), and neither circle containing both ends,
`trim_ends` does NOT return `(find_intersect end0 end1 circle0, end1)`: the
second `elif` chain still fires for circle 1 and replaces `end1` as well. -/
theorem trim_ends_both_invalid_counterexample :
    in_circle ((99:ℚ)/100, (0:ℚ)) (0, 0) 1 ∧
    in_circle ((53:ℚ)/50, (0:ℚ)) (53/50, 0) (1/20) ∧
    ¬ in_circle ((53:ℚ)/50, (0:ℚ)) (0, 0) 1 ∧
    ¬ in_circle ((99:ℚ)/100, (0:ℚ)) (53/50, 0) (1/20) ∧
    trim_ends ((99:ℚ)/100, (0:ℚ)) (53/50, 0) (0, 0) (53/50, 0) 1 (1/20)
      ≠ (find_intersect ((99:ℚ)/100, (0:ℚ)) (53/50, 0) (0, 0) 1, (53/50, 0)) := by
  refine ⟨by norm_num [in_circle], by norm_num [in_circle], by norm_num [in_circle],
    by norm_num [in_circle], ?_⟩
  rw [trimC1]
  intro hcontra
  have h2 := congrArg (fun x => x.2.1) hcontra
  norm_num at h2

/-- C1 (amended): when `end0` is strictly inside circle 0, `end1` is strictly
inside circle 1, and neither circle contains both ends, `trim_ends` replaces
`end0` by `find_intersect(end0, end1, circle0)` AND also replaces `end1` by a
`find_intersect` against circle 1 (through the still-firing `elif` chain,
which reads the already-updated `end0`); `end1` is not returned unchanged. -/
theorem trim_ends_both_invalid (end0 end1 p0 p1 : Pt) (r0 r1 : ℚ)
    (h00 : in_circle end0 p0 r0) (h11 : in_circle end1 p1 r1)
    (h10 : ¬ in_circle end1 p0 r0) (h01 : ¬ in_circle end0 p1 r1) :
    trim_ends end0 end1 p0 p1 r0 r1 =
      (find_intersect end0 end1 p0 r0,
       if in_circle (find_intersect end0 end1 p0 r0) p1 r1 then
         find_intersect (find_intersect end0 end1 p0 r0) end1 p1 r1
       else find_intersect end1 (find_intersect end0 end1 p0 r0) p1 r1) :=
  trim_ends_both_aux end0 end1 p0 p1 r0 r1 h00 h11 h10 h01

/-- C1 witness: the amended statement applied at the counterexample's input. -/
theorem trim_ends_both_invalid_witness :
    in_circle ((99:ℚ)/100, (0:ℚ)) (0, 0) 1 ∧
    in_circle ((53:ℚ)/50, (0:ℚ)) (53/50, 0) (1/20) ∧
    trim_ends ((99:ℚ)/100, (0:ℚ)) (53/50, 0) (0, 0) (53/50, 0) 1 (1/20) =
      (find_intersect ((99:ℚ)/100, (0:ℚ)) (53/50, 0) (0, 0) 1,
       if in_circle (find_intersect ((99:ℚ)/100, (0:ℚ)) (53/50, 0) (0, 0) 1)
           (53/50, 0) (1/20) then
         find_intersect (find_intersect ((99:ℚ)/100, (0:ℚ)) (53/50, 0) (0, 0) 1)
           (53/50, 0) (53/50, 0) (1/20)
       else
         find_intersect (53/50, 0) (find_intersect ((99:ℚ)/100, (0:ℚ)) (53/50, 0) (0, 0) 1)
           (53/50, 0) (1/20)) :=
  ⟨by norm_num [in_circle], by norm_num [in_circle],
   trim_ends_both_invalid _ _ _ _ _ _ (by norm_num [in_circle]) (by norm_num [in_circle])
     (by norm_num [in_circle]) (by norm_num [in_circle])⟩

/-- C2: for any circle of nonnegative radius and any straddling pair
(`inpt` strictly inside, `outpt` not inside), `find_intersect` returns a
point on the segment between them that is itself inside the circle, whose
distance to the center is within the 0.05 tolerance of the radius, and whose
distance to `outpt` does not exceed the distance from `inpt` to `outpt`. -/
theorem find_intersect_spec (inpt outpt center : Pt) (radius : ℚ)
    (hr : 0 ≤ radius) (hin : in_circle inpt center radius)
    (hout : ¬ in_circle outpt center radius) :
    (∃ t : ℚ, 0 ≤ t ∧ t ≤ 1 ∧
       find_intersect inpt outpt center radius = fracpoint inpt outpt t) ∧
    |rdist (find_intersect inpt outpt center radius) center - (radius : ℝ)| < 1/20 ∧
    in_circle (find_intersect inpt outpt center radius) center radius ∧
    rdist (find_intersect inpt outpt center radius) outpt ≤ rdist inpt outpt := by
  have hfi : fi_fuel (fuelFor (sqdist inpt outpt)) inpt outpt center radius
      = find_intersect inpt outpt center radius := rfl
  obtain ⟨⟨t, ht0, ht1, hp⟩, hpin, q, hq1, hq2⟩ :=
    fi_fuel_invariant (fuelFor (sqdist inpt outpt)) inpt outpt center radius hin hout
      (fuelFor_spec _)
  rw [hfi] at hp hpin hq2
  have hrpos : 0 < radius := by
    rcases eq_or_lt_of_le hr with h | h
    · exfalso
      have h1 := (in_circle_iff inpt center radius).mp hin
      have h2 := sqdist_nonneg inpt center
      rw [← h] at h1
      norm_num at h1
      linarith
    · exact h
  refine ⟨⟨t, ht0, ht1, hp⟩, ?_, hpin, ?_⟩
  · have h1 : rdist (find_intersect inpt outpt center radius) center < (radius : ℝ) := by
      unfold rdist
      rw [Real.sqrt_lt' (by exact_mod_cast hrpos)]
      have := (in_circle_iff _ center radius).mp hpin
      exact_mod_cast this
    have hq2' : radius ^ 2 ≤ sqdist q center :=
      le_of_not_lt (fun hc => hq1 ((in_circle_iff q center radius).mpr hc))
    have h2 : (radius : ℝ) ≤ rdist q center := by
      unfold rdist
      calc (radius : ℝ) = Real.sqrt ((radius : ℝ) ^ 2) :=
            (Real.sqrt_sq (by exact_mod_cast hr)).symm
      _ ≤ Real.sqrt ((sqdist q center : ℚ) : ℝ) := Real.sqrt_le_sqrt (by exact_mod_cast hq2')
    have h3 : rdist q (find_intersect inpt outpt center radius) < 1/20 := by
      unfold rdist
      rw [sqrt_tol_iff, sqdist_comm]
      exact hq2
    have h4 := rdist_triangle q (find_intersect inpt outpt center radius) center
    rw [abs_sub_lt_iff]
    constructor <;> linarith
  · rw [hp]
    unfold rdist
    apply Real.sqrt_le_sqrt
    rw [sqdist_fracpoint]
    have hts : (1 - t) ^ 2 ≤ 1 := by nlinarith
    have hd0 : 0 ≤ sqdist inpt outpt := sqdist_nonneg _ _
    have hmul : (1 - t) ^ 2 * sqdist inpt outpt ≤ 1 * sqdist inpt outpt :=
      mul_le_mul_of_nonneg_right hts hd0
    have : (1 - t) ^ 2 * sqdist inpt outpt ≤ sqdist inpt outpt := by linarith
    exact_mod_cast this

/-- C2 witness: the straddling pair `(0,0)` / `(0,1)` against the circle
centered at the origin with radius `1/2`. -/
theorem find_intersect_spec_witness :
    (0:ℚ) ≤ 1/2 ∧ in_circle ((0:ℚ), (0:ℚ)) (0, 0) (1/2) ∧
    ¬ in_circle ((0:ℚ), (1:ℚ)) (0, 0) (1/2) ∧
    in_circle (find_intersect ((0:ℚ), (0:ℚ)) (0, 1) (0, 0) (1/2)) (0, 0) (1/2) :=
  ⟨by norm_num, by norm_num [in_circle], by norm_num [in_circle],
   (find_intersect_spec (0, 0) (0, 1) (0, 0) (1/2) (by norm_num)
     (by norm_num [in_circle]) (by norm_num [in_circle])).2.2.1⟩

/-- C3 counterexample: in simple mode with `p0 = (0,0)` and `p1 = (0,10)`,
the x-delta is zero, so the straight-line branch runs: the point buffer does
not hold 9 raw points and the arc index does not describe 3 arcs. -/
theorem render_simple_vertical_counterexample :
    (render_core .simple ((0:ℚ), (0:ℚ)) (0, 10) 1 1 []).1.map List.length ≠ some 9 ∧
    (render_core .simple ((0:ℚ), (0:ℚ)) (0, 10) 1 1 []).2.map List.length ≠ some 3 := by
  constructor <;> (rw [render_simple_eval]; simp)

/-- C3 (amended): in simple mode with `p0 = (0,0)` and `p1 = (0,10)`, the
zero x-delta takes the straight-line branch before any delta comparison:
render stores the degenerate 4-point arc `[p0, midpoint, midpoint, p1]` and
the arc index describes exactly one arc. -/
theorem render_simple_vertical (r0 r1 : ℚ) (path : List Pt) :
    render_core .simple ((0:ℚ), (0:ℚ)) (0, 10) r0 r1 path =
      (some [some (0, 0), some (0, 5), some (0, 5), some (0, 10)], some [(0, 1, 2, 3)]) :=
  render_simple_eval r0 r1 path

/-- C4 counterexample: in curves mode with `p0 = (0,0)`, `p1 = (10,4)`,
`r0 = r1 = 1`, the elbow control points are indeed at `x = 5`, but the two
trimmed endpoints `(125/128, 0)` and `(1155/128, 4)` lie strictly INSIDE the
corresponding unit circles (`find_intersect` returns the inside point), so
their distance to the corresponding center is < 1, not >= 1. -/
theorem render_curves_trim_counterexample :
    render_core .curves ((0:ℚ), (0:ℚ)) (10, 4) 1 1 [] =
      (some [some (125/128, 0), some (5, 0), some (5, 4), some (1155/128, 4)],
       some [(0, 1, 2, 3)]) ∧
    sqdist (125/128, 0) (0, 0) < 1 ^ 2 ∧ sqdist (1155/128, 4) (10, 4) < 1 ^ 2 :=
  ⟨render_curves_eval, by norm_num [sqdist], by norm_num [sqdist]⟩

/-- C4 (amended): in curves mode with `p0 = (0,0)`, `p1 = (10,4)`,
`r0 = r1 = 1`, the elbow control points are at `x = 5` and each trimmed
endpoint lies strictly inside the corresponding unit circle but within the
0.05 tolerance of its boundary: its squared distance to the corresponding
center lies strictly between `(19/20)^2` and `1`. -/
theorem render_curves_trim_within_tolerance :
    render_core .curves ((0:ℚ), (0:ℚ)) (10, 4) 1 1 [] =
      (some [some (125/128, 0), some (5, 0), some (5, 4), some (1155/128, 4)],
       some [(0, 1, 2, 3)]) ∧
    (19/20) ^ 2 < sqdist (125/128, 0) (0, 0) ∧ sqdist (125/128, 0) (0, 0) < 1 ∧
    (19/20) ^ 2 < sqdist (1155/128, 4) (10, 4) ∧ sqdist (1155/128, 4) (10, 4) < 1 :=
  ⟨render_curves_eval, by norm_num [sqdist], by norm_num [sqdist], by norm_num [sqdist],
   by norm_num [sqdist]⟩

/-- C5: `find_intersect` terminates on every input: each recursive call
quarters the squared distance of the pair (i.e. halves the distance), a
provably sufficient fuel exists (any fuel at least `fuelFor` of the squared
distance yields the same value), and the resulting total function satisfies
the source's recursion equation. -/
theorem find_intersect_terminates (inpt outpt center : Pt) (radius : ℚ) :
    sqdist (midpoint outpt inpt) outpt = sqdist inpt outpt / 4 ∧
    sqdist inpt (midpoint outpt inpt) = sqdist inpt outpt / 4 ∧
    (∀ m : ℕ, fuelFor (sqdist inpt outpt) ≤ m →
       fi_fuel m inpt outpt center radius = find_intersect inpt outpt center radius) ∧
    find_intersect inpt outpt center radius =
      (if sqdist inpt outpt < 1/400 then inpt
       else if in_circle (midpoint outpt inpt) center radius then
         find_intersect (midpoint outpt inpt) outpt center radius
       else find_intersect inpt (midpoint outpt inpt) center radius) := by
  refine ⟨sqdist_mid_right _ _, sqdist_mid_left _ _, ?_, find_intersect_eq _ _ _ _⟩
  intro m hm
  exact fi_fuel_eq_of_le hm _ _ _ _ (fuelFor_spec _)

/-- C5 witness: at the degenerate input with coincident endpoints, fuel 401
already suffices and agrees with `find_intersect`. -/
theorem find_intersect_terminates_witness :
    fuelFor (sqdist ((0:ℚ), (0:ℚ)) (0, 0)) ≤ 401 ∧
    fi_fuel 401 ((0:ℚ), (0:ℚ)) (0, 0) (0, 0) 1 = find_intersect ((0:ℚ), (0:ℚ)) (0, 0) (0, 0) 1 := by
  have h : fuelFor (sqdist ((0:ℚ), (0:ℚ)) (0, 0)) ≤ 401 := by
    norm_num [fuelFor, sqdist, Int.ceil_zero]
  exact ⟨h, (find_intersect_terminates (0, 0) (0, 0) (0, 0) 1).2.2.1 401 h⟩

/-- C6 counterexample: `make_arc` does not place its interior control points
at the exact one-third and two-thirds interpolation points: for the segment
from `(0,0)` to `(1000,0)` the first control point is `(333, 0)`, not
`(1000/3, 0)`. -/
theorem make_arc_counterexample :
    make_arc ((0:ℚ), (0:ℚ)) (1000, 0)
      ≠ ((0, 0), lerp (0, 0) (1000, 0) (1/3), lerp (0, 0) (1000, 0) (2/3), (1000, 0)) := by
  intro h
  have h1 := congrArg (fun x => x.2.1.1) h
  norm_num [make_arc, fracpoint, lerp] at h1

/-- C6 (amended): for every pair of points, `make_arc(a, b)` is the
quadruple `(a, lerp(a,b,0.333), lerp(a,b,0.666), b)`: the interior control
points sit at the literal fractions 0.333 and 0.666 of the segment, not at
1/3 and 2/3. -/
theorem make_arc_eq_lerp (a b : Pt) :
    make_arc a b = (a, lerp a b (333/1000), lerp a b (666/1000), b) := by
  unfold make_arc fracpoint lerp
  refine Prod.ext rfl (Prod.ext (Prod.ext ?_ ?_) (Prod.ext (Prod.ext ?_ ?_) rfl)) <;>
    dsimp only <;> ring

/-- C7: `in_circle` holds exactly when the squared distance from the point
to the center is strictly less than the squared radius; a point whose
squared distance equals the squared radius (in particular a boundary point
at distance exactly the radius) is not inside. -/
theorem in_circle_strict (p center : Pt) (radius : ℚ) :
    (in_circle p center radius ↔
      (center.1 - p.1) ^ 2 + (center.2 - p.2) ^ 2 < radius ^ 2) ∧
    ((center.1 - p.1) ^ 2 + (center.2 - p.2) ^ 2 = radius ^ 2 →
      ¬ in_circle p center radius) := by
  refine ⟨Iff.rfl, ?_⟩
  intro h hc
  unfold in_circle at hc
  rw [h] at hc
  exact lt_irrefl _ hc

/-- C7 witness: the boundary point `(1, 0)` of the unit circle at the origin
is not inside. -/
theorem in_circle_strict_witness : ¬ in_circle ((1:ℚ), (0:ℚ)) (0, 0) 1 :=
  (in_circle_strict (1, 0) (0, 0) 1).2 (by norm_num)

/-- C8: a draw cycle from any lifecycle-reachable state in which an endpoint
is unset, the color is unset, or the arc chain produced for this cycle is
absent or empty, emits no screen draw call and no laser message. -/
theorem draw_incomplete_silent (mode : LineMode)
    (cubic : Pt → Pt → Pt → Pt → ℕ → List Pt × List ℕ) (rescale : List Pt → List Pt)
    (s : LineState) (hs : Reachable mode cubic rescale s)
    (h : s.m_p0 = none ∨ s.m_p1 = none ∨ s.m_color = none ∨
         (drawRender mode s).m_arcindex = none ∨ (drawRender mode s).m_arcindex = some []) :
    (draw mode cubic rescale s).2 = [] := by
  unfold draw
  rcases h with h | h | h | h | h
  · rw [drawRender_of_unset mode s (Or.inl h), drawEmit_of_gate_false _ _ _
      (gate_false_of_arcpoints_none _ (reachable_arcpoints_none hs (Or.inl h)))]
  · rw [drawRender_of_unset mode s (Or.inr h), drawEmit_of_gate_false _ _ _
      (gate_false_of_arcpoints_none _ (reachable_arcpoints_none hs (Or.inr h)))]
  · rw [drawEmit_of_gate_false _ _ _
      (gate_false_of_color_none _ (by rw [drawRender_m_color]; exact h))]
  · rw [drawEmit_of_gate_false _ _ _ (gate_false_of_arcindex_trivial _ (Or.inl h))]
  · rw [drawEmit_of_gate_false _ _ _ (gate_false_of_arcindex_trivial _ (Or.inr h))]

/-- C8 witness: the freshly constructed state has no endpoints, and its draw
cycle emits nothing. -/
theorem draw_incomplete_silent_witness :
    initState.m_p0 = none ∧
    (draw .direct trivialCubic trivialRescale initState).2 = [] :=
  ⟨rfl, draw_incomplete_silent .direct trivialCubic trivialRescale initState
    Reachable.init (Or.inl rfl)⟩

/-- C9: with the owning field reference unset, a draw cycle emits nothing,
even when both endpoints, the color, and a nonempty arc chain are present. -/
theorem draw_field_unset_silent (mode : LineMode)
    (cubic : Pt → Pt → Pt → Pt → ℕ → List Pt × List ℕ) (rescale : List Pt → List Pt)
    (s : LineState) (h : s.m_field = false) :
    (draw mode cubic rescale s).2 = [] := by
  unfold draw
  rw [drawEmit_of_gate_false _ _ _
    (gate_false_of_field_false _ (by rw [drawRender_m_field]; exact h))]

/-- C9 witness: a state with endpoints, color, and a nonempty chain set but
`m_field` unset emits nothing. -/
theorem draw_field_unset_silent_witness :
    (⟨false, some (0, 0), some (1, 1), some 1, some 1, some (1, 1, 1), [],
      some [some (0, 0), some (0, 0), some (0, 0), some (0, 0)], some [(0, 1, 2, 3)],
      [], []⟩ : LineState).m_field = false ∧
    (draw .direct trivialCubic trivialRescale
      ⟨false, some (0, 0), some (1, 1), some 1, some 1, some (1, 1, 1), [],
       some [some (0, 0), some (0, 0), some (0, 0), some (0, 0)], some [(0, 1, 2, 3)],
       [], []⟩).2 = [] :=
  ⟨rfl, draw_field_unset_silent .direct trivialCubic trivialRescale _ rfl⟩

/-- C10: in pathfinding mode, if every consecutive pair of waypoints is
skipped (both points inside the same circle), the rendered index list is
empty and the point buffer holds only the placeholder terminator; a draw
from any state carrying these inputs then emits nothing, and every index the
arc index would dereference is in bounds (vacuously, as there are none). -/
theorem render_pathfinding_all_skipped (p0 p1 : Pt) (r0 r1 : ℚ) (path : List Pt)
    (h : ∀ pr ∈ path.zip path.tail, skipPair p0 p1 r0 r1 pr.1 pr.2) :
    render_core .pathfinding p0 p1 r0 r1 path = (some [none], some []) ∧
    ∀ (cubic : Pt → Pt → Pt → Pt → ℕ → List Pt × List ℕ) (rescale : List Pt → List Pt)
      (s : LineState), s.m_p0 = some p0 → s.m_p1 = some p1 → s.m_r0 = some r0 →
      s.m_r1 = some r1 → s.m_path = path →
      (draw .pathfinding cubic rescale s).2 = [] ∧
      ∀ q ∈ ((drawRender .pathfinding s).m_arcindex.getD []),
        q.1 < ((drawRender .pathfinding s).m_arcpoints.getD []).length ∧
        q.2.1 < ((drawRender .pathfinding s).m_arcpoints.getD []).length ∧
        q.2.2.1 < ((drawRender .pathfinding s).m_arcpoints.getD []).length ∧
        q.2.2.2 < ((drawRender .pathfinding s).m_arcpoints.getD []).length := by
  have hrc : render_core .pathfinding p0 p1 r0 r1 path = (some [none], some []) := by
    dsimp only [render_core]
    rw [foldl_pathStep_skip _ _ _ _ _ _ h]
    simp [mkArcIndex_one]
  refine ⟨hrc, ?_⟩
  intro cubic rescale s hp0 hp1 hr0 hr1 hpath
  have hdr : drawRender .pathfinding s =
      { s with m_arcpoints := some [none], m_arcindex := some [],
               m_points := [], m_index := [] } := by
    unfold drawRender
    rw [hp0, hp1]
    dsimp only
    rw [hr0, hr1, hpath]
    dsimp only [Option.getD_some]
    rw [hrc]
  refine ⟨?_, ?_⟩
  · unfold draw
    rw [hdr, drawEmit_of_gate_false _ _ _ (gate_false_of_arcindex_trivial _ (Or.inr rfl))]
  · intro q hq
    rw [hdr] at hq
    simp at hq

/-- C10 witness: the two-waypoint path `[(0,0), (0.1,0)]` lies entirely
inside circle 0 (unit circle at the origin), so rendering yields an empty
index and drawing emits nothing. -/
theorem render_pathfinding_all_skipped_witness :
    render_core .pathfinding ((0:ℚ), (0:ℚ)) (5, 5) 1 1 [(0, 0), (1/10, 0)]
      = (some [none], some []) ∧
    (draw .pathfinding trivialCubic trivialRescale
      ⟨true, some (0, 0), some (5, 5), some 1, some 1, some (1, 1, 1),
       [(0, 0), (1/10, 0)], none, none, [], []⟩).2 = [] := by
  have hall : ∀ pr ∈ (([((0:ℚ), (0:ℚ)), (1/10, 0)] : List Pt).zip
      ([((0:ℚ), (0:ℚ)), (1/10, 0)] : List Pt).tail),
      skipPair (0, 0) (5, 5) 1 1 pr.1 pr.2 := by
    have hz : (([((0:ℚ), (0:ℚ)), (1/10, 0)] : List Pt).zip
        ([((0:ℚ), (0:ℚ)), (1/10, 0)] : List Pt).tail) = [((0, 0), (1/10, 0))] := rfl
    rw [hz]
    intro pr hpr
    rw [List.mem_singleton] at hpr
    subst hpr
    norm_num [skipPair, in_circle]
  have h := render_pathfinding_all_skipped (0, 0) (5, 5) 1 1 [(0, 0), (1/10, 0)] hall
  exact ⟨h.1, (h.2 trivialCubic trivialRescale _ rfl rfl rfl rfl rfl).1⟩

end Line

